import Mathlib

/-!
Shallow embedding of the InstiFund backtesting engine
(`src/market/portfolio.py`, `src/market/simulation.py`, `src/backtest.py`).

Modelling conventions:
* Python floats are modelled by exact rationals `ℚ`; the arithmetic of
  the accounting engine is a chain of `+ - * /` so the rational model is
  the idealised (exact) semantics of the float code.
* Python `dict` is modelled by an association list `List (String × α)`
  with insertion-order semantics: updating an existing key rewrites it
  in place, inserting a fresh key appends at the end (Python ≥ 3.7
  iteration-order semantics).
* Python `datetime` is modelled by a `(year, month, day)` triple;
  `.date()` is the identity because the engine only ever uses dates.
* A Python `raise` is modelled by `Except.error`; a function that cannot
  raise is total.
* Division by zero in ℚ returns 0 where Python would raise
  `ZeroDivisionError`; every theorem below that divides supplies the
  positivity hypotheses making the two semantics agree.
-/

namespace InstiFund

/-- Calendar date `(year, month, day)` modelling Python `datetime`. -/
structure Date where
  year : Nat
  month : Nat
  day : Nat
deriving DecidableEq, Repr

/-- Lexicographic order on dates, matching `datetime` comparison. -/
def Date.leb (a b : Date) : Bool :=
  if a.year ≠ b.year then a.year < b.year
  else if a.month ≠ b.month then a.month < b.month
  else a.day ≤ b.day

/-- Strict lexicographic order on dates. -/
def Date.ltb (a b : Date) : Bool :=
  Date.leb a b && !(a == b)

/-- One row of `daily_data.csv`: a quote (trading day, ticker, price). -/
structure Row where
  date : Date
  symbol : String
  price : ℚ
deriving DecidableEq, Repr

/-- Python-dict update: rewrite the key in place if present, else append. -/
def updateEntry {α : Type} : List (String × α) → String → α → List (String × α)
  | [], k, v => [(k, v)]
  | (k', v') :: rest, k, v =>
    if k' = k then (k, v) :: rest else (k', v') :: updateEntry rest k v

/-- Python-dict `del`: drop the entry with the given key. -/
def eraseKey {α : Type} : List (String × α) → String → List (String × α)
  | [], _ => []
  | (k', v') :: rest, k =>
    if k' = k then rest else (k', v') :: eraseKey rest k

/-- A held position: `{'quantity': float, 'average_price': float}`. -/
structure Asset where
  quantity : ℚ
  average_price : ℚ
deriving DecidableEq, Repr

/-- Transaction direction. -/
inductive Action where
  | buy
  | sell
deriving DecidableEq, Repr

/-- One entry of `Portfolio.transactions`.  `total` is `total_cost` for a
buy and `total_revenue` for a sell; `realized_pl` is only present on
sells. -/
structure Transaction where
  action : Action
  asset : String
  quantity : ℚ
  price : ℚ
  total : ℚ
  realized_pl : Option ℚ
  datetime : Date
deriving DecidableEq, Repr

/-- The cached same-day win/loss aggregates `Portfolio.daily_statistics`. -/
structure DailyStats where
  sum_of_winners : ℚ
  sum_of_losers : ℚ
  number_of_trades : Nat
  number_of_winners : Nat
  date : Option Date
deriving DecidableEq, Repr

/-- The all-zero statistics record with the given date slot. -/
def DailyStats.fresh (d : Option Date) : DailyStats :=
  { sum_of_winners := 0, sum_of_losers := 0, number_of_trades := 0,
    number_of_winners := 0, date := d }

/-- The `Portfolio` ledger (`src/market/portfolio.py`). -/
structure Portfolio where
  balance : ℚ
  initial_balance : ℚ
  realized_profit_loss : ℚ
  assets : List (String × Asset)
  transactions : List Transaction
  daily_statistics : DailyStats
deriving DecidableEq, Repr

/-- `Portfolio.__init__(name, initial_balance)`. -/
def Portfolio.init (initial_balance : ℚ) : Portfolio :=
  { balance := initial_balance, initial_balance := initial_balance,
    realized_profit_loss := 0, assets := [], transactions := [],
    daily_statistics := DailyStats.fresh none }

/-- `Portfolio.add_asset`: merge the buy into the position (recomputing
the weighted average price), debit the cash balance, log the
transaction. -/
def Portfolio.add_asset (p : Portfolio) (asset_name : String) (quantity total_cost price : ℚ)
    (transaction_date : Date) : Portfolio :=
  let assets' :=
    match p.assets.lookup asset_name with
    | none =>
        updateEntry p.assets asset_name
          { quantity := quantity, average_price := total_cost / quantity }
    | some a =>
        let new_quantity := a.quantity + quantity
        let new_avg_price := (a.quantity * a.average_price + total_cost) / new_quantity
        updateEntry p.assets asset_name
          { quantity := new_quantity, average_price := new_avg_price }
  { p with
    assets := assets'
    balance := p.balance - total_cost
    transactions := p.transactions ++
      [{ action := .buy, asset := asset_name, quantity := quantity,
         price := price, total := total_cost, realized_pl := none,
         datetime := transaction_date }] }

/-- `Portfolio.get_daily_statistics(date)`: the cached aggregates when
they are for `date`, otherwise an all-zero record carrying `date`. -/
def Portfolio.get_daily_statistics (p : Portfolio) (date : Date) : DailyStats :=
  if p.daily_statistics.date ≠ some date then DailyStats.fresh (some date)
  else p.daily_statistics

/-- `Portfolio.remove_asset`: raises when the symbol is not held or the
requested quantity exceeds the position; otherwise realizes P&L, shrinks
or deletes the position, credits cash, logs the sell and updates the
same-day win/loss aggregates. -/
def Portfolio.remove_asset (p : Portfolio) (asset_name : String)
    (quantity total_revenue price : ℚ) (transaction_date : Date) :
    Except String Portfolio :=
  match p.assets.lookup asset_name with
  | some a =>
    if quantity > a.quantity then
      .error "Not enough quantity to sell."
    else
      let realized_pl := total_revenue - quantity * a.average_price
      let newQuantity := a.quantity - quantity
      let assets' :=
        if newQuantity ≤ 0 then eraseKey p.assets asset_name
        else updateEntry p.assets asset_name
          { quantity := newQuantity, average_price := a.average_price }
      let ds :=
        if p.daily_statistics.date ≠ some transaction_date then
          DailyStats.fresh (some transaction_date)
        else p.daily_statistics
      let ds := { ds with number_of_trades := ds.number_of_trades + 1 }
      let ds :=
        if realized_pl > 0 then
          { ds with sum_of_winners := ds.sum_of_winners + realized_pl,
                    number_of_winners := ds.number_of_winners + 1 }
        else
          { ds with sum_of_losers := ds.sum_of_losers + |realized_pl| }
      .ok { p with
        realized_profit_loss := p.realized_profit_loss + realized_pl,
        assets := assets',
        balance := p.balance + total_revenue,
        transactions := p.transactions ++
          [{ action := .sell, asset := asset_name, quantity := quantity,
             price := price, total := total_revenue,
             realized_pl := some realized_pl, datetime := transaction_date }],
        daily_statistics := ds }
  | none => .error "Asset not found in portfolio."

/-- `Portfolio.paid_value(asset_name, quantity)`: quantity times the
stored average price; raises when the symbol is not held. -/
def Portfolio.paid_value (p : Portfolio) (asset_name : String) (quantity : ℚ) :
    Except String ℚ :=
  match p.assets.lookup asset_name with
  | some a => .ok (quantity * a.average_price)
  | none => .error "Asset not found in portfolio."

/-- Drop duplicate dates keeping first occurrences (pandas
`drop_duplicates`). -/
def dedupDatesAux : List Date → List Date → List Date
  | [], acc => acc.reverse
  | d :: rest, acc =>
    if acc.contains d then dedupDatesAux rest acc
    else dedupDatesAux rest (d :: acc)

/-- Remove duplicate dates, keeping the first occurrence of each. -/
def dedupDates (ds : List Date) : List Date := dedupDatesAux ds []

/-- Stable insertion of a date into an ascending list. -/
def insertDate (d : Date) : List Date → List Date
  | [] => [d]
  | e :: rest => if Date.leb d e then d :: e :: rest else e :: insertDate d rest

/-- Stable ascending sort of dates (pandas `sort_values`). -/
def sortDates : List Date → List Date
  | [] => []
  | d :: rest => insertDate d (sortDates rest)

/-- An execution quote returned by `MarketSimulation.buy_stock`
(`total` is `total_cost`) or `sell_stock` (`total` is `total_revenue`);
the Python empty dict `{}` is modelled by `Option.none` around it. -/
structure Quote where
  symbol : String
  quantity : ℚ
  total : ℚ
  price : ℚ
  date : Date
deriving DecidableEq, Repr

/-- The `MarketSimulation` state.  `marketData` models the module-level
`MARKET_DATA` table and `fee` the configured `TRADING_FEE`; both are
fixed at construction and never written. -/
structure SimState where
  marketData : List Row
  fee : ℚ
  trading_days : List Date
  current_trading_day_index : Nat
  current_date : Date
  current_data : List Row
  latest_price_cache : List (String × ℚ)
deriving DecidableEq, Repr

/-- `MarketSimulation._get_trading_days`: distinct dates of the data
inside `[start_date, end_date]`, sorted ascending. -/
def get_trading_days (data : List Row) (start_date end_date : Date) : List Date :=
  sortDates (dedupDates
    ((data.filter (fun r => Date.leb start_date r.date && Date.leb r.date end_date)).map
      (·.date)))

/-- `MARKET_DATA_BY_DATE` lookup: the rows of the given day, in table
order (`groupby` preserves row order within a group). -/
def dataByDate (data : List Row) (d : Date) : List Row :=
  data.filter (fun r => r.date = d)

/-- `MarketSimulation.__init__`: raises when the range holds no trading
day; otherwise starts the cursor on the first trading day with an empty
price cache. -/
def SimState.init (data : List Row) (fee : ℚ) (start_date end_date : Date) :
    Except String SimState :=
  let days := get_trading_days data start_date end_date
  match days with
  | [] => .error "No trading days available in the specified date range."
  | d0 :: _ =>
    .ok { marketData := data, fee := fee, trading_days := days,
          current_trading_day_index := 0, current_date := d0,
          current_data := dataByDate data d0, latest_price_cache := [] }

/-- `MarketSimulation.step`: advance the cursor to the next trading day
(returning `false` at the end of the range) and fold that day's quotes
into the latest-price cache. -/
def SimState.step (s : SimState) : SimState × Bool :=
  if s.current_trading_day_index + 1 < s.trading_days.length then
    let idx := s.current_trading_day_index + 1
    let date := s.trading_days.getD idx s.current_date
    let new_data := dataByDate s.marketData date
    if new_data ≠ [] then
      ({ s with current_trading_day_index := idx, current_date := date,
                current_data := new_data,
                latest_price_cache :=
                  new_data.foldl
                    (fun c r => updateEntry c r.symbol r.price)
                    s.latest_price_cache }, true)
    else
      ({ s with current_trading_day_index := idx, current_date := date }, true)
  else (s, false)

/-- `MarketSimulation.buy_stock`: no quote when the day has no data or
the symbol is not quoted today; otherwise the latest cached price (0.0
when the cache misses) with `total_cost = price·qty·(1+fee)`. -/
def SimState.buy_stock (s : SimState) (symbol : String) (quantity : ℚ) : Option Quote :=
  if s.current_data = [] then none
  else if ¬ (s.current_data.map (·.symbol)).contains symbol then none
  else
    let price := (s.latest_price_cache.lookup symbol).getD 0
    some { symbol := symbol, quantity := quantity,
           total := price * quantity * (1 + s.fee),
           price := price, date := s.current_date }

/-- `MarketSimulation.sell_stock`: no quote when the day has no data or
the symbol is not quoted today; otherwise the latest cached price (0.0
when the cache misses) with `total_revenue = price·qty·(1−fee)`. -/
def SimState.sell_stock (s : SimState) (symbol : String) (quantity : ℚ) : Option Quote :=
  if s.current_data = [] then none
  else if ¬ (s.current_data.map (·.symbol)).contains symbol then none
  else
    let price := (s.latest_price_cache.lookup symbol).getD 0
    some { symbol := symbol, quantity := quantity,
           total := price * quantity * (1 - s.fee),
           price := price, date := s.current_date }

/-- First row carrying the maximal date: the `iloc[0]` of a stable
descending `sort_values`, where a later row only wins with a strictly
larger date. -/
def maxDateRowFirst (rows : List Row) : Option Row :=
  rows.foldl
    (fun acc r =>
      match acc with
      | none => some r
      | some b => if Date.ltb b.date r.date then some r else some b)
    none

/-- `MarketSimulation.get_last_available_price`: cached price if
present; otherwise the price of the latest row for the asset dated up to
the current day (0.0 when none exists), cached either way. -/
def SimState.get_last_available_price (s : SimState) (asset : String) : ℚ × SimState :=
  match s.latest_price_cache.lookup asset with
  | some p => (p, s)
  | none =>
    let asset_data := s.marketData.filter
      (fun r => r.symbol = asset && Date.leb r.date s.current_date)
    match maxDateRowFirst asset_data with
    | none => (0, { s with latest_price_cache := updateEntry s.latest_price_cache asset 0 })
    | some r =>
        (r.price,
         { s with latest_price_cache := updateEntry s.latest_price_cache asset r.price })

/-- The summary returned by `MarketSimulation.get_portfolio_statistics`. -/
structure PortfolioStats where
  total_value : ℚ
  unrealized_profit_loss : ℚ
  realized_profit_loss : ℚ
deriving DecidableEq, Repr

/-- `MarketSimulation.get_portfolio_statistics`: cash plus
mark-to-market value of the positions from the latest-price cache;
raises (`none`) when a held asset has no cache entry. -/
def SimState.get_portfolio_statistics (s : SimState) (p : Portfolio) :
    Option PortfolioStats :=
  if p.assets.all (fun kv => (s.latest_price_cache.lookup kv.1).isSome) then
    let value := p.assets.foldl
      (fun acc kv => acc + ((s.latest_price_cache.lookup kv.1).getD 0) * kv.2.quantity) 0
    let unreal := p.assets.foldl
      (fun acc kv =>
        acc + (((s.latest_price_cache.lookup kv.1).getD 0) * (1 - s.fee)
                - kv.2.average_price) * kv.2.quantity) 0
    some { total_value := p.balance + value, unrealized_profit_loss := unreal,
           realized_profit_loss := p.realized_profit_loss }
  else none

/-- `MarketSimulation.is_last_trading_day`. -/
def SimState.is_last_trading_day (s : SimState) : Bool :=
  s.current_trading_day_index = s.trading_days.length - 1

/-- `Backtesting.RELEASE_DAY`: day of the month when new data is released. -/
def RELEASE_DAY : Nat := 20

/-- `Backtesting.MAX_VOLUME`: maximum volume in one transaction. -/
def MAX_VOLUME : ℤ := 20000

/-- The strategy parameters read from `params` in `Backtesting.__init__`. -/
structure BParams where
  initial_balance : ℚ
  number_of_stocks : Nat
  trailing_stop_loss : ℚ
  take_profit : ℚ
  weighting_option : String
deriving DecidableEq, Repr

/-- One record appended to `portfolio_statistics` per simulated day. -/
structure StatRecord where
  datetime : Date
  total_assets : ℚ
  cash : ℚ
  number_of_trades : Nat
  number_of_winners : Nat
  sum_of_winners : ℚ
  sum_of_losers : ℚ
deriving DecidableEq, Repr

/-- The `Backtesting` orchestrator state. -/
structure BState where
  portfolio : Portfolio
  sim : SimState
  params : BParams
  top_stocks : List String
  need_rebalance : String
  peak_prices : List (String × ℚ)
  portfolio_statistics : List StatRecord
deriving DecidableEq, Repr

/-- `Backtesting.__init__`: fresh portfolio, flag `"no"`, no peaks, no
statistics, simulation cursor on the first trading day. -/
def BState.init (params : BParams) (data : List Row) (fee : ℚ)
    (start_date end_date : Date) : Except String BState := do
  let sim ← SimState.init data fee start_date end_date
  .ok { portfolio := Portfolio.init params.initial_balance, sim := sim,
        params := params, top_stocks := [], need_rebalance := "no",
        peak_prices := [], portfolio_statistics := [] }

/-- `Backtesting.sell`: quote first; a missing or zero-revenue quote
returns `false` leaving the state untouched, otherwise the position is
removed from the ledger. -/
def BState.sell (st : BState) (asset : String) (quantity : ℚ) :
    Except String (BState × Bool) :=
  match st.sim.sell_stock asset quantity with
  | none => .ok (st, false)
  | some q =>
    if q.total = 0 then .ok (st, false)
    else do
      let _ ← st.portfolio.paid_value asset quantity
      let p' ← st.portfolio.remove_asset asset quantity q.total q.price q.date
      .ok ({ st with portfolio := p' }, true)

/-- `Backtesting.buy`: quote first; a missing or zero-cost quote returns
`false` leaving the state untouched, otherwise the position is added to
the ledger. -/
def BState.buy (st : BState) (symbol : String) (quantity : ℚ) : BState × Bool :=
  match st.sim.buy_stock symbol quantity with
  | none => (st, false)
  | some q =>
    if q.total = 0 then (st, false)
    else ({ st with
            portfolio := st.portfolio.add_asset symbol quantity q.total q.price q.date },
          true)

/-- `Backtesting.update_peak_price`: record the price on first sight,
afterwards keep the running maximum. -/
def BState.update_peak_price (st : BState) (asset : String) (current_price : ℚ) : BState :=
  match st.peak_prices.lookup asset with
  | none => { st with peak_prices := updateEntry st.peak_prices asset current_price }
  | some p =>
      { st with peak_prices := updateEntry st.peak_prices asset (max p current_price) }

/-- `Backtesting.check_sell_conditions`: `false` for an unheld asset;
otherwise refresh the peak to `max(peak, current_price)` and signal a
sell on take-profit (`(cp − avg)/avg ≥ take_profit`) or trailing stop
(`(cp − peak)/peak ≤ −trailing_stop_loss`). -/
def BState.check_sell_conditions (st : BState) (asset : String) (current_price : ℚ) :
    BState × Bool :=
  match st.portfolio.assets.lookup asset with
  | none => (st, false)
  | some asset_data =>
    let purchase_price := asset_data.average_price
    let peak := max ((st.peak_prices.lookup asset).getD current_price) current_price
    let st := { st with peak_prices := updateEntry st.peak_prices asset peak }
    if (current_price - purchase_price) / purchase_price ≥ st.params.take_profit then
      (st, true)
    else if (current_price - peak) / peak ≤ -st.params.trailing_stop_loss then
      (st, true)
    else (st, false)

/-- `Backtesting.get_weights` over the top `N` ranked stocks.  NumPy's
float `np.exp` is abstracted by the function argument `expApprox`. -/
def get_weights (expApprox : ℚ → ℚ) (N : Nat) (ranked_stocks : List (String × ℚ))
    (option : String) : Except String (List (String × ℚ)) := do
  let scores := (ranked_stocks.take N).map (·.2)
  let weights ←
    if option = "softmax" then
      let exp_scores := scores.map expApprox
      Except.ok (exp_scores.map (· / exp_scores.sum))
    else if option = "equal" then
      Except.ok (List.replicate scores.length ((1 : ℚ) / scores.length))
    else if option = "linear" then
      Except.ok (scores.map (· / scores.sum))
    else Except.error "Invalid option."
  .ok (((ranked_stocks.take N).map (·.1)).zip weights)

/-- The body of the buy loop of `Backtesting.rebalance_portfolio` for
one symbol: resolve the cached marked-up price, skip on a missing or
non-positive price, size the order to
`min(floor(allocated_funds // price), MAX_VOLUME)` and buy when the size
is positive. -/
def BState.rebalanceBuyStep (available_balance : ℚ) (price_map weights : List (String × ℚ))
    (st : BState) (symbol : String) : BState :=
  match price_map.lookup symbol with
  | none => st
  | some stock_price =>
    if stock_price = 0 ∨ stock_price ≤ 0 then st
    else
      let allocated_funds := available_balance * ((weights.lookup symbol).getD 0)
      let desired_quantity : ℤ := min ⌊allocated_funds / stock_price⌋ MAX_VOLUME
      if desired_quantity > 0 then (st.buy symbol (desired_quantity : ℚ)).1 else st

/-- One step of the sell phase of `rebalance_portfolio`: sell the
currently held quantity of the asset
(`self.sell(asset, self.portfolio.assets[asset]['quantity'])`). -/
def BState.sellHeldStep (st : BState) (asset : String) : Except String BState := do
  let q := ((st.portfolio.assets.lookup asset).map (·.quantity)).getD 0
  let pr ← st.sell asset q
  pure pr.1

/-- One step of the price-prefetch of the buy phase: resolve the last
available price (mutating the cache) and record it marked up by 1.01. -/
def BState.pmStep (acc : List (String × ℚ) × BState) (symbol : String) :
    List (String × ℚ) × BState :=
  let pr := acc.2.sim.get_last_available_price symbol
  (updateEntry acc.1 symbol (pr.1 * (101 / 100)), { acc.2 with sim := pr.2 })

/-- `Backtesting.rebalance_portfolio` with the external
`StocksRanking(month, year, …).get_ranking()` collaborator abstracted by
`rank`: on the `"sell"` phase liquidate every position and arm `"buy"`;
on the `"buy"` phase allocate 90% of cash over the top-`N` ranking by
`get_weights`, price each symbol at `get_last_available_price × 1.01`
and run the buy loop; otherwise do nothing. -/
def BState.rebalance (expApprox : ℚ → ℚ) (rank : Nat → Nat → List (String × ℚ))
    (st : BState) : Except String BState :=
  if st.need_rebalance = "sell" then do
    let current_assets := st.portfolio.assets.map (·.1)
    let st ← current_assets.foldlM BState.sellHeldStep st
    pure { st with need_rebalance := "buy" }
  else if st.need_rebalance = "buy" then do
    let ranked_stocks := rank st.sim.current_date.month st.sim.current_date.year
    let top_stocks := (ranked_stocks.take st.params.number_of_stocks).map (·.1)
    let st := { st with top_stocks := top_stocks }
    let available_balance := st.portfolio.balance * ((9 : ℚ) / 10)
    let weights ← get_weights expApprox st.params.number_of_stocks ranked_stocks
      st.params.weighting_option
    let pmSt := top_stocks.foldl BState.pmStep ([], st)
    let price_map := pmSt.1
    let st := pmSt.2
    let st := top_stocks.foldl
      (BState.rebalanceBuyStep available_balance price_map weights) st
    pure { st with need_rebalance := "None" }
  else pure st

/-- The risk-exit step of the run loop for one snapshot entry: resolve
the last available price, then on the final day sell outright, otherwise
sell only when `check_sell_conditions` fires at a positive price.  The
quantity sold is read through the live position (Python reads the
snapshot's dict reference, which aliases the current position). -/
def BState.riskExitStep (is_last : Bool) (st : BState) (asset : String) :
    Except String BState := do
  let pr := st.sim.get_last_available_price asset
  let current_price := pr.1
  let st := { st with sim := pr.2 }
  if is_last then
    let q := ((st.portfolio.assets.lookup asset).map (·.quantity)).getD 0
    let (st, _) ← st.sell asset q
    pure st
  else if current_price > 0 then
    let cs := st.check_sell_conditions asset current_price
    if cs.2 then
      let st := cs.1
      let q := ((st.portfolio.assets.lookup asset).map (·.quantity)).getD 0
      let (st, _) ← st.sell asset q
      pure st
    else pure cs.1
  else pure st

/-- Month-change check at the top of the run loop: entering a new month
arms the `"sell"` phase and updates the loop's `last_month`. -/
def BState.monthArm (last_month : Nat) (st : BState) : Nat × BState :=
  if st.sim.current_date.month ≠ last_month then
    (st.sim.current_date.month, { st with need_rebalance := "sell" })
  else (last_month, st)

/-- Tail of the run-loop body: read the day's win/loss aggregates and
portfolio valuation (the latter raising when a held asset is missing
from the price cache) and append the day's record to
`portfolio_statistics`. -/
def BState.statsAppend (current_date : Date) (st : BState) : Except String BState :=
  let daily_stats := st.portfolio.get_daily_statistics current_date
  match st.sim.get_portfolio_statistics st.portfolio with
  | none => .error "Missing price data for asset"
  | some pstats =>
    .ok { st with portfolio_statistics := st.portfolio_statistics ++
        [{ datetime := current_date, total_assets := pstats.total_value,
           cash := st.portfolio.balance,
           number_of_trades := daily_stats.number_of_trades,
           number_of_winners := daily_stats.number_of_winners,
           sum_of_winners := daily_stats.sum_of_winners,
           sum_of_losers := daily_stats.sum_of_losers }] }

/-- One iteration of the `while self.simulation.step()` loop of
`Backtesting.run`, entered after the step: month change arms the
`"sell"` phase; the rebalance runs on non-final days past the release
day; the risk-exit loop walks the pre-rebalance snapshot of the
holdings; finally the day's statistics record is appended. -/
def BState.dayBody (expApprox : ℚ → ℚ) (rank : Nat → Nat → List (String × ℚ))
    (last_month : Nat) (st : BState) : Except String (BState × Nat) := do
  let current_date := st.sim.current_date
  let lmSt := BState.monthArm last_month st
  let items := lmSt.2.portfolio.assets
  let is_last := lmSt.2.sim.is_last_trading_day
  let st1 ←
    if ¬ is_last ∧ current_date.day ≥ RELEASE_DAY ∧ lmSt.2.need_rebalance ≠ "no" then
      lmSt.2.rebalance expApprox rank
    else pure lmSt.2
  let st2 ← items.foldlM (fun (st : BState) kv => st.riskExitStep is_last kv.1) st1
  let st3 ← BState.statsAppend current_date st2
  pure (st3, lmSt.1)

/-- Fuel-indexed unfolding of the `while self.simulation.step()` loop;
`trading_days.length` fuel always suffices since every iteration
advances the day cursor. -/
def runAux (expApprox : ℚ → ℚ) (rank : Nat → Nat → List (String × ℚ)) :
    Nat → Nat → BState → Except String BState
  | 0, _, st => .ok st
  | fuel + 1, last_month, st =>
    let stepped := st.sim.step
    let st := { st with sim := stepped.1 }
    if stepped.2 then do
      let bodied ← st.dayBody expApprox rank last_month
      runAux expApprox rank fuel bodied.2 bodied.1
    else .ok st

/-- `Backtesting.run`: seed `last_month` from the cursor, arm the
`"buy"` phase, then run the day loop to exhaustion. -/
def BState.run (expApprox : ℚ → ℚ) (rank : Nat → Nat → List (String × ℚ))
    (st : BState) : Except String BState :=
  let last_month := st.sim.current_date.month
  let st := { st with need_rebalance := "buy" }
  runAux expApprox rank st.sim.trading_days.length last_month st

/-! Concrete states used by witnesses and counterexamples. -/

/-- Tiny simulation state: one trading day, symbol `"A"` cached at 1. -/
def simStub : SimState :=
  { marketData := [], fee := 0, trading_days := [⟨2024, 1, 2⟩],
    current_trading_day_index := 0, current_date := ⟨2024, 1, 2⟩,
    current_data := [], latest_price_cache := [("A", 1)] }

/-- Tiny orchestrator state around `simStub` with cash 100. -/
def bStub : BState :=
  { portfolio := Portfolio.init 100, sim := simStub,
    params := { initial_balance := 100, number_of_stocks := 1,
                trailing_stop_loss := 35 / 100, take_profit := 25 / 100,
                weighting_option := "equal" },
    top_stocks := [], need_rebalance := "no", peak_prices := [],
    portfolio_statistics := [] }

/-- Simulation state holding symbol `"A"` quoted today at 50, with the
cache agreeing. -/
def simC7 : SimState :=
  { marketData := [], fee := 0, trading_days := [⟨2024, 1, 2⟩],
    current_trading_day_index := 0, current_date := ⟨2024, 1, 2⟩,
    current_data := [⟨⟨2024, 1, 2⟩, "A", 50⟩],
    latest_price_cache := [("A", 50)] }

/-- Orchestrator state holding one share of `"A"` with a stale recorded
peak of 100 from an earlier holding. -/
def bC7 : BState :=
  { portfolio := { Portfolio.init 100 with assets := [("A", ⟨1, 1⟩)] },
    sim := simC7,
    params := { initial_balance := 100, number_of_stocks := 1,
                trailing_stop_loss := 35 / 100, take_profit := 25 / 100,
                weighting_option := "equal" },
    top_stocks := [], need_rebalance := "no", peak_prices := [("A", 100)],
    portfolio_statistics := [] }

/-- Simulation state where `"A"` has a cached (known) price but only
`"B"` is quoted on the current day. -/
def simC8 : SimState :=
  { marketData := [], fee := 0, trading_days := [⟨2024, 1, 3⟩],
    current_trading_day_index := 0, current_date := ⟨2024, 1, 3⟩,
    current_data := [⟨⟨2024, 1, 3⟩, "B", 5⟩],
    latest_price_cache := [("A", 100), ("B", 5)] }

/-- Frame predicate: the two simulation states agree on everything
except possibly the latest-price cache (the only simulation field the
run-loop bodies may write). -/
def simFrame (s s' : SimState) : Prop :=
  s'.marketData = s.marketData ∧ s'.fee = s.fee ∧ s'.trading_days = s.trading_days
  ∧ s'.current_trading_day_index = s.current_trading_day_index
  ∧ s'.current_date = s.current_date ∧ s'.current_data = s.current_data

/-- C9 dataset: `"A"` is quoted on the first two trading days but not on
the last one, where only `"B"` trades. -/
def dataC9 : List Row :=
  [⟨⟨2024, 1, 20⟩, "A", 100⟩, ⟨⟨2024, 1, 21⟩, "A", 100⟩, ⟨⟨2024, 1, 22⟩, "B", 50⟩]

/-- Strategy parameters shared by the run-loop scenarios. -/
def pC9 : BParams :=
  { initial_balance := 1000, number_of_stocks := 1,
    trailing_stop_loss := 35 / 100, take_profit := 25 / 100,
    weighting_option := "equal" }

/-- Ranking collaborator that always proposes `"A"`. -/
def rankC9 : Nat → Nat → List (String × ℚ) := fun _ _ => [("A", 1)]

/-- C10 dataset: two quiet trading days before the release day. -/
def dataC10 : List Row :=
  [⟨⟨2024, 1, 5⟩, "A", 10⟩, ⟨⟨2024, 1, 6⟩, "A", 10⟩]

/-- The orchestrator state `Backtesting.__init__` produces on `dataC10`
over 2024-01-05 .. 2024-01-06. -/
def st0C10 : BState :=
  { portfolio := Portfolio.init 1000,
    sim := { marketData := dataC10, fee := 0,
             trading_days := [⟨2024, 1, 5⟩, ⟨2024, 1, 6⟩],
             current_trading_day_index := 0, current_date := ⟨2024, 1, 5⟩,
             current_data := [⟨⟨2024, 1, 5⟩, "A", 10⟩], latest_price_cache := [] },
    params := pC9, top_stocks := [], need_rebalance := "no",
    peak_prices := [], portfolio_statistics := [] }

/-- The orchestrator state `Backtesting.__init__` produces on `dataC9`
over 2024-01-20 .. 2024-01-22. -/
def st0C9 : BState :=
  { portfolio := Portfolio.init 1000,
    sim := { marketData := dataC9, fee := 0,
             trading_days := [⟨2024, 1, 20⟩, ⟨2024, 1, 21⟩, ⟨2024, 1, 22⟩],
             current_trading_day_index := 0, current_date := ⟨2024, 1, 20⟩,
             current_data := [⟨⟨2024, 1, 20⟩, "A", 100⟩], latest_price_cache := [] },
    params := pC9, top_stocks := [], need_rebalance := "no",
    peak_prices := [], portfolio_statistics := [] }

/-! Helper lemmas about the association-list dictionary model. -/

theorem lookup_updateEntry_self {α : Type} (m : List (String × α)) (k : String) (v : α) :
    (updateEntry m k v).lookup k = some v := by
  induction m with
  | nil => simp [updateEntry, List.lookup]
  | cons hd tl ih =>
    obtain ⟨hk, hv⟩ := hd
    by_cases h : hk = k
    · simp [updateEntry, h, List.lookup]
    · have hb : (k == hk) = false := beq_eq_false_iff_ne.mpr (Ne.symm h)
      simp [updateEntry, h, List.lookup, hb, ih]

theorem lookup_updateEntry_ne {α : Type} (m : List (String × α)) (k k' : String) (v : α)
    (h : k' ≠ k) : (updateEntry m k v).lookup k' = m.lookup k' := by
  induction m with
  | nil => simp [updateEntry, List.lookup, beq_eq_false_iff_ne.mpr h]
  | cons hd tl ih =>
    obtain ⟨hk, hv⟩ := hd
    by_cases hkk : hk = k
    · subst hkk
      simp [updateEntry, List.lookup, beq_eq_false_iff_ne.mpr h]
    · simp [updateEntry, hkk, List.lookup, ih]

/-- C1: a sell request for more than the held quantity (including a
symbol that is not held at all, where any held quantity is vacuous)
makes `remove_asset` raise; since a raise is `Except.error` carrying no
portfolio, the caller's balance, assets, transaction log, realized P&L
and daily statistics are untouched. -/
theorem remove_asset_insufficient_is_error (p : Portfolio) (a : String)
    (q rev pr : ℚ) (d : Date)
    (h : ∀ ad, p.assets.lookup a = some ad → ad.quantity < q) :
    ∃ msg, p.remove_asset a q rev pr d = Except.error msg := by
  cases hl : p.assets.lookup a with
  | none =>
    exact ⟨"Asset not found in portfolio.", by simp [Portfolio.remove_asset, hl]⟩
  | some ad =>
    exact ⟨"Not enough quantity to sell.",
      by simp [Portfolio.remove_asset, hl, gt_iff_lt, h ad hl]⟩

/-- Witness for C1: selling 10 shares of a position of 5 errors out. -/
theorem remove_asset_insufficient_is_error_witness :
    ∃ msg, ({ Portfolio.init 100 with assets := [("A", ⟨5, 2⟩)] } : Portfolio).remove_asset
      "A" 10 1 1 ⟨2024, 1, 1⟩ = Except.error msg :=
  remove_asset_insufficient_is_error _ "A" 10 1 1 ⟨2024, 1, 1⟩ (by
    intro ad had
    simp [Portfolio.init, List.lookup] at had
    rw [← had]
    norm_num)

/-- C4: two consecutive buys of the same symbol with quantities `q1, q2`
and all-in costs `c1, c2` leave a stored average price of exactly
`(c1 + c2) / (q1 + q2)` — the quantity-weighted mean of the all-in
per-share costs — and a partial `remove_asset` keeps both the average
price of the remaining position and nothing else of it changed beyond
the quantity. -/
theorem average_price_weighted_mean (p : Portfolio) (sym : String)
    (q1 c1 pr1 q2 c2 pr2 : ℚ) (d1 d2 : Date)
    (hnone : p.assets.lookup sym = none) (hq1 : q1 ≠ 0) :
    (((p.add_asset sym q1 c1 pr1 d1).add_asset sym q2 c2 pr2 d2).assets.lookup sym)
      = some ⟨q1 + q2, (c1 + c2) / (q1 + q2)⟩
    ∧ (∀ (p' : Portfolio) (Q A q rev pr : ℚ) (d : Date),
        p'.assets.lookup sym = some ⟨Q, A⟩ → 0 < q → q < Q →
        (p'.remove_asset sym q rev pr d).map (fun r => r.assets.lookup sym)
          = .ok (some ⟨Q - q, A⟩)) := by
  constructor
  · have hc : q1 * (c1 / q1) = c1 := by field_simp
    simp [Portfolio.add_asset, hnone, lookup_updateEntry_self, hc]
  · intro p' Q A q rev pr d hsome hq0 hqQ
    have hnot : ¬ (q > Q) := not_lt.mpr hqQ.le
    have hpos : ¬ (Q - q ≤ 0) := by simp; linarith
    simp [Portfolio.remove_asset, hsome, gt_iff_lt, hnot, hpos,
      lookup_updateEntry_self, Except.map]

/-- Witness for C4: buying 2 shares for 10 then 3 shares for 20 stores
the average price (10+20)/(2+3) = 6, and selling 1 of the 5 keeps it. -/
theorem average_price_weighted_mean_witness :
    (((Portfolio.init 100).add_asset "A" 2 10 5 ⟨2024, 1, 2⟩).add_asset "A" 3 20 7
        ⟨2024, 1, 3⟩).assets.lookup "A" = some ⟨5, 6⟩
    ∧ (∀ (p' : Portfolio) (Q A q rev pr : ℚ) (d : Date),
        p'.assets.lookup "A" = some ⟨Q, A⟩ → 0 < q → q < Q →
        (p'.remove_asset "A" q rev pr d).map (fun r => r.assets.lookup "A")
          = .ok (some ⟨Q - q, A⟩)) := by
  have h := average_price_weighted_mean (Portfolio.init 100) "A" 2 10 5 3 20 7
    ⟨2024, 1, 2⟩ ⟨2024, 1, 3⟩ (by simp [Portfolio.init]) (by norm_num)
  refine ⟨?_, h.2⟩
  rw [h.1]
  norm_num

/-- C5: a full round trip — buy `q` shares at price `p` for total cost
`p·q·(1+f)`, then sell all `q` at the same price for revenue
`p·q·(1−f)` — changes recorded realized P&L by exactly
`−(p·q·f + p·q·f)`, strictly negative when `f > 0` and zero when
`f = 0`. -/
theorem round_trip_realized_pl (p0 : Portfolio) (sym : String) (pr q f : ℚ)
    (d1 d2 : Date) (hnone : p0.assets.lookup sym = none) (hq : 0 < q) (hp : 0 < pr) :
    ((p0.add_asset sym q (pr * q * (1 + f)) pr d1).remove_asset sym q
        (pr * q * (1 - f)) pr d2).map (fun r => r.realized_profit_loss)
      = .ok (p0.realized_profit_loss - (pr * q * f + pr * q * f))
    ∧ (0 < f →
        p0.realized_profit_loss - (pr * q * f + pr * q * f) < p0.realized_profit_loss)
    ∧ (f = 0 →
        p0.realized_profit_loss - (pr * q * f + pr * q * f) = p0.realized_profit_loss) := by
  refine ⟨?_, ?_, ?_⟩
  · have h1 : ((p0.add_asset sym q (pr * q * (1 + f)) pr d1).assets.lookup sym)
        = some ⟨q, pr * q * (1 + f) / q⟩ := by
      simp [Portfolio.add_asset, hnone, lookup_updateEntry_self]
    have hbal : (p0.add_asset sym q (pr * q * (1 + f)) pr d1).realized_profit_loss
        = p0.realized_profit_loss := by
      cases hl : p0.assets.lookup sym <;> simp [Portfolio.add_asset, hl]
    have harith : p0.realized_profit_loss
          + (pr * q * (1 - f) - q * (pr * q * (1 + f) / q))
        = p0.realized_profit_loss - (pr * q * f + pr * q * f) := by
      field_simp
      ring
    simp [Portfolio.remove_asset, h1, gt_iff_lt, lt_irrefl, hbal, harith, Except.map]
  · intro hf
    have : 0 < pr * q * f := by positivity
    linarith
  · intro hf
    rw [hf]
    ring_nf

/-- Witness for C5: buy 2 at 10 with fee 1%, sell all 2 at 10; the
realized P&L is exactly the two fees, −0.4. -/
theorem round_trip_realized_pl_witness :
    (((Portfolio.init 100).add_asset "A" 2 (10 * 2 * (1 + 1 / 100)) 10
        ⟨2024, 1, 2⟩).remove_asset "A" 2 (10 * 2 * (1 - 1 / 100)) 10
        ⟨2024, 1, 3⟩).map (fun r => r.realized_profit_loss)
      = .ok ((Portfolio.init 100).realized_profit_loss
              - (10 * 2 * (1 / 100) + 10 * 2 * (1 / 100))) :=
  (round_trip_realized_pl (Portfolio.init 100) "A" 10 2 (1 / 100) ⟨2024, 1, 2⟩
    ⟨2024, 1, 3⟩ (by simp [Portfolio.init]) (by norm_num) (by norm_num)).1

/-! Lemmas supporting C3: the cash-balance recurrence and the
non-negativity of the balance through the rebalancing buy loop. -/

theorem add_asset_balance (p : Portfolio) (n : String) (q c pr : ℚ) (d : Date) :
    (p.add_asset n q c pr d).balance = p.balance - c := by
  cases hl : p.assets.lookup n <;> simp [Portfolio.add_asset, hl]

theorem remove_asset_balance (p p' : Portfolio) (n : String) (q rev pr : ℚ) (d : Date)
    (h : p.remove_asset n q rev pr d = .ok p') : p'.balance = p.balance + rev := by
  cases hl : p.assets.lookup n with
  | none => simp [Portfolio.remove_asset, hl] at h
  | some ad =>
    by_cases hq : q > ad.quantity
    · simp [Portfolio.remove_asset, hl, hq] at h
    · simp [Portfolio.remove_asset, hl, hq] at h
      rw [← h]

theorem rebalanceBuyStep_sim (AB : ℚ) (pm w : List (String × ℚ)) (st : BState)
    (s : String) : (BState.rebalanceBuyStep AB pm w st s).sim = st.sim := by
  unfold BState.rebalanceBuyStep
  cases hpm : pm.lookup s with
  | none => rfl
  | some sp =>
    dsimp only
    split
    · rfl
    · split
      · unfold BState.buy
        cases hq : st.sim.buy_stock s _ with
        | none => rfl
        | some qi =>
          dsimp only
          split <;> rfl
      · rfl

theorem buy_stock_total (s : SimState) (sym : String) (q : ℚ) (qi : Quote)
    (h : s.buy_stock sym q = some qi) :
    qi.total = ((s.latest_price_cache.lookup sym).getD 0) * q * (1 + s.fee) := by
  unfold SimState.buy_stock at h
  split at h
  · exact absurd h (by simp)
  · split at h
    · exact absurd h (by simp)
    · cases h
      rfl

theorem buy_balance (st : BState) (sym : String) (q : ℚ) :
    ((st.buy sym q).1.portfolio.balance = st.portfolio.balance
      ∧ (st.buy sym q).1 = st)
    ∨ (st.buy sym q).1.portfolio.balance
        = st.portfolio.balance
          - ((st.sim.latest_price_cache.lookup sym).getD 0) * q * (1 + st.sim.fee) := by
  unfold BState.buy
  cases hq : st.sim.buy_stock sym q with
  | none => exact .inl ⟨rfl, rfl⟩
  | some qi =>
    dsimp only
    split
    · exact .inl ⟨rfl, rfl⟩
    · right
      rw [add_asset_balance, buy_stock_total st.sim sym q qi hq]

theorem rebalanceBuyStep_balance (st : BState) (AB : ℚ) (pm w : List (String × ℚ))
    (s : String) (hfee : 0 ≤ st.sim.fee) (hAB : 0 ≤ AB)
    (hw : 0 ≤ (w.lookup s).getD 0)
    (hprice : ∀ sp, pm.lookup s = some sp →
      sp = (101 / 100) * ((st.sim.latest_price_cache.lookup s).getD 0)) :
    st.portfolio.balance - AB * ((w.lookup s).getD 0) * (1 + st.sim.fee) * (100 / 101)
      ≤ (BState.rebalanceBuyStep AB pm w st s).portfolio.balance
    ∧ (BState.rebalanceBuyStep AB pm w st s).portfolio.balance ≤ st.portfolio.balance := by
  have hK : 0 ≤ AB * ((w.lookup s).getD 0) * (1 + st.sim.fee) * (100 / 101) := by
    have h1 : (0 : ℚ) < 1 + st.sim.fee := by linarith
    positivity
  unfold BState.rebalanceBuyStep
  cases hpm : pm.lookup s with
  | none => exact ⟨by linarith, le_refl _⟩
  | some sp =>
    dsimp only
    split
    · exact ⟨by linarith, le_refl _⟩
    · rename_i hsp
      push_neg at hsp
      obtain ⟨hne, hsppos⟩ := hsp
      split
      · rename_i hdq
        rcases buy_balance st s
            ((min ⌊AB * ((w.lookup s).getD 0) / sp⌋ MAX_VOLUME : ℤ) : ℚ) with ⟨hb, _⟩ | hb
        · rw [hb]
          exact ⟨by linarith, le_refl _⟩
        · rw [hb]
          have hsp_eq := hprice sp hpm
          have hcppos : 0 < (st.sim.latest_price_cache.lookup s).getD 0 := by
            nlinarith [hsp_eq, hsppos]
          have hdq1 : ((min ⌊AB * ((w.lookup s).getD 0) / sp⌋ MAX_VOLUME : ℤ) : ℚ)
              ≤ AB * ((w.lookup s).getD 0) / sp := by
            calc ((min ⌊AB * ((w.lookup s).getD 0) / sp⌋ MAX_VOLUME : ℤ) : ℚ)
                ≤ ((⌊AB * ((w.lookup s).getD 0) / sp⌋ : ℤ) : ℚ) := by
                  exact_mod_cast min_le_left _ _
              _ ≤ AB * ((w.lookup s).getD 0) / sp := Int.floor_le _
          have hdqpos : (0 : ℚ)
              < ((min ⌊AB * ((w.lookup s).getD 0) / sp⌋ MAX_VOLUME : ℤ) : ℚ) := by
            exact_mod_cast hdq
          have hfpos : (0 : ℚ) < 1 + st.sim.fee := by linarith
          have hcost_nonneg : 0 ≤ (st.sim.latest_price_cache.lookup s).getD 0
              * ((min ⌊AB * ((w.lookup s).getD 0) / sp⌋ MAX_VOLUME : ℤ) : ℚ)
              * (1 + st.sim.fee) := by positivity
          have hcp_eq : (st.sim.latest_price_cache.lookup s).getD 0
              = (100 / 101) * sp := by linarith
          have hmain : (st.sim.latest_price_cache.lookup s).getD 0
              * ((min ⌊AB * ((w.lookup s).getD 0) / sp⌋ MAX_VOLUME : ℤ) : ℚ)
              * (1 + st.sim.fee)
              ≤ AB * ((w.lookup s).getD 0) * (1 + st.sim.fee) * (100 / 101) := by
            have h1 : (st.sim.latest_price_cache.lookup s).getD 0
                * ((min ⌊AB * ((w.lookup s).getD 0) / sp⌋ MAX_VOLUME : ℤ) : ℚ)
                * (1 + st.sim.fee)
                ≤ (st.sim.latest_price_cache.lookup s).getD 0
                * (AB * ((w.lookup s).getD 0) / sp) * (1 + st.sim.fee) := by
              have := mul_le_mul_of_nonneg_left hdq1 hcppos.le
              exact mul_le_mul_of_nonneg_right this hfpos.le
            have h2 : (st.sim.latest_price_cache.lookup s).getD 0
                * (AB * ((w.lookup s).getD 0) / sp) * (1 + st.sim.fee)
                = AB * ((w.lookup s).getD 0) * (1 + st.sim.fee) * (100 / 101) := by
              rw [hcp_eq]
              field_simp
              ring
            linarith
          exact ⟨by linarith, by linarith⟩
      · exact ⟨by linarith, le_refl _⟩


theorem buyLoop_balance_ge (AB : ℚ) (pm w : List (String × ℚ)) :
    ∀ (syms : List String) (st : BState), 0 ≤ st.sim.fee → 0 ≤ AB →
    (∀ s ∈ syms, 0 ≤ (w.lookup s).getD 0) →
    (∀ s ∈ syms, ∀ sp, pm.lookup s = some sp →
      sp = (101 / 100) * ((st.sim.latest_price_cache.lookup s).getD 0)) →
    st.portfolio.balance
      - AB * (1 + st.sim.fee) * (100 / 101)
        * ((syms.map (fun s => (w.lookup s).getD 0)).sum)
    ≤ ((syms.foldl (fun acc s => BState.rebalanceBuyStep AB pm w acc s) st)).portfolio.balance
  | [], st, _, _, _, _ => by simp
  | s :: rest, st, hfee, hAB, hw, hp => by
    have hstep := rebalanceBuyStep_balance st AB pm w s hfee hAB
      (hw s (by simp)) (hp s (by simp))
    have hsim := rebalanceBuyStep_sim AB pm w st s
    have ih := buyLoop_balance_ge AB pm w rest (BState.rebalanceBuyStep AB pm w st s)
      (by rw [hsim]; exact hfee) hAB (fun t ht => hw t (by simp [ht]))
      (fun t ht sp hsp => by rw [hsim]; exact hp t (by simp [ht]) sp hsp)
    rw [hsim] at ih
    simp only [List.foldl_cons, List.map_cons, List.sum_cons]
    have hassoc : AB * ((w.lookup s).getD 0) * (1 + st.sim.fee) * (100 / 101)
        = AB * (1 + st.sim.fee) * (100 / 101) * ((w.lookup s).getD 0) := by ring
    rw [mul_add]
    linarith [hstep.1]

/-- C3: every buy debits exactly the all-in cost and every successful
sell credits exactly the revenue; and through the rebalancing buy loop
— each order sized to `min(floor(0.9·balance·weight / (last_price·1.01)),
MAX_VOLUME)` shares, costing `price·quantity·(1+fee)` with the cached
price coupled to the 1.01-marked-up sizing price — the cash balance
stays non-negative at every intermediate point, for non-negative weights
summing to at most 1 and any fee with `0.9·(1+fee) ≤ 1.01`. -/
theorem cash_recurrence_and_rebalance_nonneg :
    (∀ (p : Portfolio) (n : String) (q c pr : ℚ) (d : Date),
        (p.add_asset n q c pr d).balance = p.balance - c)
    ∧ (∀ (p p' : Portfolio) (n : String) (q rev pr : ℚ) (d : Date),
        p.remove_asset n q rev pr d = .ok p' → p'.balance = p.balance + rev)
    ∧ (∀ (st : BState) (pm w : List (String × ℚ)) (pre rest : List String),
        0 ≤ st.portfolio.balance → 0 ≤ st.sim.fee →
        (9 : ℚ) / 10 * (1 + st.sim.fee) ≤ 101 / 100 →
        (∀ s ∈ pre ++ rest, 0 ≤ (w.lookup s).getD 0) →
        ((pre ++ rest).map (fun s => (w.lookup s).getD 0)).sum ≤ 1 →
        (∀ s ∈ pre ++ rest, ∀ sp, pm.lookup s = some sp →
          sp = (101 / 100) * ((st.sim.latest_price_cache.lookup s).getD 0)) →
        0 ≤ (pre.foldl (fun acc s =>
              BState.rebalanceBuyStep (st.portfolio.balance * ((9 : ℚ) / 10)) pm w acc s)
            st).portfolio.balance) := by
  refine ⟨add_asset_balance, remove_asset_balance, ?_⟩
  intro st pm w pre rest hbal hfee hfeebound hw hsum hp
  have hAB : 0 ≤ st.portfolio.balance * ((9 : ℚ) / 10) := by linarith
  have hmaster := buyLoop_balance_ge (st.portfolio.balance * ((9 : ℚ) / 10)) pm w pre st
    hfee hAB (fun s hs => hw s (by simp [hs]))
    (fun s hs sp hsp => hp s (by simp [hs]) sp hsp)
  have hsum_pre : (pre.map (fun s => (w.lookup s).getD 0)).sum ≤ 1 := by
    have hrest : 0 ≤ (rest.map (fun s => (w.lookup s).getD 0)).sum := by
      apply List.sum_nonneg
      intro x hx
      obtain ⟨t, ht, rfl⟩ := List.mem_map.mp hx
      exact hw t (by simp [ht])
    have h2 := hsum
    rw [List.map_append, List.sum_append] at h2
    linarith
  have hsum_pre_nonneg : 0 ≤ (pre.map (fun s => (w.lookup s).getD 0)).sum := by
    apply List.sum_nonneg
    intro x hx
    obtain ⟨t, ht, rfl⟩ := List.mem_map.mp hx
    exact hw t (by simp [ht])
  have hfpos : (0 : ℚ) < 1 + st.sim.fee := by linarith
  have hKpos : 0 ≤ st.portfolio.balance * ((9 : ℚ) / 10) * (1 + st.sim.fee) * (100 / 101) := by
    positivity
  have hKle : st.portfolio.balance * ((9 : ℚ) / 10) * (1 + st.sim.fee) * (100 / 101)
      ≤ st.portfolio.balance := by nlinarith
  nlinarith [hmaster, hsum_pre, hsum_pre_nonneg, hKpos, hKle]

/-- Witness for C3: one symbol `"A"` at cached price 1 (sizing price
1.01), weight 1, cash 100, fee 0; the loop leaves the balance
non-negative. -/
theorem cash_recurrence_and_rebalance_nonneg_witness :
    0 ≤ ((["A"] : List String).foldl (fun acc s =>
          BState.rebalanceBuyStep (bStub.portfolio.balance * ((9 : ℚ) / 10))
            [("A", 101 / 100)] [("A", 1)] acc s)
        bStub).portfolio.balance := by
  refine cash_recurrence_and_rebalance_nonneg.2.2 bStub [("A", 101 / 100)] [("A", 1)]
    ["A"] [] ?_ ?_ ?_ ?_ ?_ ?_
  · simp [bStub, Portfolio.init]
  · simp [bStub, simStub]
  · simp [bStub, simStub]
    norm_num
  · intro s hs
    simp at hs
    subst hs
    simp [List.lookup]
  · simp [List.lookup]
  · intro s hs sp hsp
    simp at hs
    subst hs
    simp [List.lookup] at hsp
    subst hsp
    simp [bStub, simStub, List.lookup]

/-- C2: the quoting functions `buy_stock`/`sell_stock` are pure reads of
the simulation (they take no portfolio and return only a quote), and a
failed quote — `None` or a falsy (zero) total — makes `Backtesting.buy`
and `Backtesting.sell` return `false` with the whole orchestrator state,
portfolio included, exactly as before. -/
theorem failed_quote_leaves_state_unchanged :
    (∀ (st : BState) (a : String) (q : ℚ),
      (st.sim.sell_stock a q = none
        ∨ ∃ qi, st.sim.sell_stock a q = some qi ∧ qi.total = 0) →
      st.sell a q = .ok (st, false))
    ∧ (∀ (st : BState) (a : String) (q : ℚ),
      (st.sim.buy_stock a q = none
        ∨ ∃ qi, st.sim.buy_stock a q = some qi ∧ qi.total = 0) →
      st.buy a q = (st, false)) := by
  constructor
  · intro st a q h
    unfold BState.sell
    rcases h with h | ⟨qi, hq, hz⟩
    · rw [h]
    · rw [hq]
      simp [hz]
  · intro st a q h
    unfold BState.buy
    rcases h with h | ⟨qi, hq, hz⟩
    · rw [h]
    · rw [hq]
      simp [hz]

/-- Witness for C2: selling an unquoted symbol `"B"` at `bStub` (whose
day has no quotes at all) returns `false` and the very same state. -/
theorem failed_quote_leaves_state_unchanged_witness :
    bStub.sell "B" 1 = .ok (bStub, false) :=
  failed_quote_leaves_state_unchanged.1 bStub "B" 1
    (Or.inl (by simp [bStub, simStub, SimState.sell_stock]))

/-- C8 counterexample: in `simC8` the price of `"A"` is known (cached at
100) yet `buy_stock` returns the empty quote because `"A"` is not quoted
on the current day — so "empty exactly when no price is known for the
symbol at all" is false on the code. -/
theorem quote_empty_despite_known_price :
    simC8.buy_stock "A" 1 = none
    ∧ simC8.sell_stock "A" 1 = none
    ∧ simC8.latest_price_cache.lookup "A" = some 100 := by
  refine ⟨?_, ?_, ?_⟩ <;> simp [simC8, SimState.buy_stock, SimState.sell_stock, List.lookup]

/-- C8 as amended: the quote is empty exactly when the current day has
no market data or the symbol is not among the symbols quoted on the
current day; otherwise it carries the latest cached price (0 when the
symbol was never cached), `total = price·qty·(1±fee)` and the current
date. -/
theorem quote_characterization (s : SimState) (sym : String) (q : ℚ) :
    (s.buy_stock sym q = none
      ↔ (s.current_data = [] ∨ sym ∉ s.current_data.map (fun r => r.symbol)))
    ∧ (s.sell_stock sym q = none
      ↔ (s.current_data = [] ∨ sym ∉ s.current_data.map (fun r => r.symbol)))
    ∧ (s.current_data ≠ [] → sym ∈ s.current_data.map (fun r => r.symbol) →
        s.buy_stock sym q = some
          { symbol := sym, quantity := q,
            total := ((s.latest_price_cache.lookup sym).getD 0) * q * (1 + s.fee),
            price := (s.latest_price_cache.lookup sym).getD 0,
            date := s.current_date }
        ∧ s.sell_stock sym q = some
          { symbol := sym, quantity := q,
            total := ((s.latest_price_cache.lookup sym).getD 0) * q * (1 - s.fee),
            price := (s.latest_price_cache.lookup sym).getD 0,
            date := s.current_date }) := by
  refine ⟨?_, ?_, ?_⟩
  · unfold SimState.buy_stock
    split
    · simp_all
    · split <;> rename_i hmem
      · simp_all
      · simp_all
  · unfold SimState.sell_stock
    split
    · simp_all
    · split <;> rename_i hmem
      · simp_all
      · simp_all
  · intro hne hmem
    constructor
    · unfold SimState.buy_stock
      rw [if_neg hne, if_neg (by simpa using hmem)]
    · unfold SimState.sell_stock
      rw [if_neg hne, if_neg (by simpa using hmem)]

/-- Witness for C8's amended characterization: at `simC8`, `"B"` is
quoted today, so the quote carries the cached price 5 and the date. -/
theorem quote_characterization_witness :
    simC8.current_data ≠ [] ∧
    simC8.buy_stock "B" 2 = some
      { symbol := "B", quantity := 2,
        total := ((simC8.latest_price_cache.lookup "B").getD 0) * 2 * (1 + simC8.fee),
        price := (simC8.latest_price_cache.lookup "B").getD 0,
        date := simC8.current_date } := by
  have h := (quote_characterization simC8 "B" 2).2.2 (by simp [simC8])
    (by simp [simC8])
  exact ⟨by simp [simC8], h.1⟩

/-- C6: for a held asset with stored average price `pp > 0`, recorded
peak `P > 0` and any positive current price, `check_sell_conditions`
returns `true` exactly when `cp ≥ pp·(1 + take_profit)` or
`cp ≤ P·(1 − trailing_stop_loss)` (the trailing boundary itself
triggers, any price strictly between the thresholds does not), provided
`trailing_stop_loss > 0`. -/
theorem check_sell_conditions_iff (st : BState) (asset : String) (cp Q pp P : ℚ)
    (hheld : st.portfolio.assets.lookup asset = some ⟨Q, pp⟩)
    (hpeak : st.peak_prices.lookup asset = some P)
    (hpp : 0 < pp) (hP : 0 < P) (hcp : 0 < cp)
    (htsl : 0 < st.params.trailing_stop_loss) :
    (st.check_sell_conditions asset cp).2 = true
      ↔ (pp * (1 + st.params.take_profit) ≤ cp
          ∨ cp ≤ P * (1 - st.params.trailing_stop_loss)) := by
  have h1 : ((cp - pp) / pp ≥ st.params.take_profit)
      ↔ (pp * (1 + st.params.take_profit) ≤ cp) := by
    rw [ge_iff_le, le_div_iff₀ hpp]
    constructor <;> intro h <;> nlinarith
  have hpkpos : 0 < max P cp := lt_max_iff.mpr (Or.inl hP)
  have h2 : ((cp - max P cp) / max P cp ≤ -st.params.trailing_stop_loss)
      ↔ (cp ≤ P * (1 - st.params.trailing_stop_loss)) := by
    rw [div_le_iff₀ hpkpos]
    rcases le_or_lt cp P with hle | hlt
    · rw [max_eq_left hle]
      constructor <;> intro h <;> nlinarith
    · rw [max_eq_right hlt.le]
      constructor
      · intro h
        nlinarith
      · intro h
        nlinarith
  have hres : (st.check_sell_conditions asset cp).2
      = (decide ((cp - pp) / pp ≥ st.params.take_profit)
         || decide ((cp - max P cp) / max P cp ≤ -st.params.trailing_stop_loss)) := by
    simp only [BState.check_sell_conditions, hheld, hpeak, Option.getD_some]
    split_ifs with hc1 hc2 <;> simp_all
  rw [hres]
  simp only [Bool.or_eq_true, decide_eq_true_eq]
  constructor
  · rintro (h | h)
    · exact Or.inl (h1.mp h)
    · exact Or.inr (h2.mp h)
  · rintro (h | h)
    · exact Or.inl (h1.mpr h)
    · exact Or.inr (h2.mpr h)

/-- Witness for C6: held `"A"` with average price 1, peak 100, trailing
stop 35%: a current price of 50 is at most 100·0.65, so the exit fires
and the characterization instantiates. -/
theorem check_sell_conditions_iff_witness :
    (bC7.check_sell_conditions "A" 50).2 = true
      ↔ (1 * (1 + bC7.params.take_profit) ≤ 50
          ∨ (50 : ℚ) ≤ 100 * (1 - bC7.params.trailing_stop_loss)) :=
  check_sell_conditions_iff bC7 "A" 50 1 1 100
    (by simp [bC7, Portfolio.init, List.lookup])
    (by simp [bC7, List.lookup])
    (by norm_num) (by norm_num) (by norm_num)
    (by norm_num [bC7])

/-- C7 counterexample: at `bC7` the whole position in `"A"` is sold
(the sell succeeds and the assets map drops the symbol), yet the
recorded peak price of `"A"` survives at 100 — the peak map is never
reset by position removal, so a later re-purchase inherits the stale
peak instead of starting fresh. -/
theorem peak_survives_position_removal :
    (bC7.sell "A" 1).map
        (fun r => (r.2, r.1.portfolio.assets.lookup "A", r.1.peak_prices.lookup "A"))
      = .ok (true, none, some 100) := by
  norm_num [bC7, simC7, BState.sell, SimState.sell_stock, Portfolio.paid_value,
    Portfolio.remove_asset, Portfolio.init, eraseKey, List.lookup, DailyStats.fresh,
    Except.map, Bind.bind, Except.bind]

/-- C7 as amended: while tracked, the recorded peak price is
monotonically non-decreasing under both mutation sites
(`update_peak_price` and `check_sell_conditions`), and a successful
`Backtesting.sell` never removes or changes any peak entry — removal of
the position does not reset the peak, which persists to any
re-purchase. -/
theorem peak_price_monotone_never_reset :
    (∀ (st : BState) (a t : String) (cp old : ℚ),
        st.peak_prices.lookup t = some old →
        ∃ new, (st.update_peak_price a cp).peak_prices.lookup t = some new ∧ old ≤ new)
    ∧ (∀ (st : BState) (a t : String) (cp old : ℚ),
        st.peak_prices.lookup t = some old →
        ∃ new, (st.check_sell_conditions a cp).1.peak_prices.lookup t = some new
          ∧ old ≤ new)
    ∧ (∀ (st st' : BState) (a : String) (q : ℚ) (b : Bool),
        st.sell a q = .ok (st', b) → st'.peak_prices = st.peak_prices) := by
  refine ⟨?_, ?_, ?_⟩
  · intro st a t cp old hold
    by_cases hta : t = a
    · subst hta
      rw [BState.update_peak_price, hold]
      exact ⟨max old cp, by simp [lookup_updateEntry_self], le_max_left _ _⟩
    · unfold BState.update_peak_price
      cases hpa : st.peak_prices.lookup a <;>
        exact ⟨old, by simpa [lookup_updateEntry_ne _ _ _ _ hta] using hold, le_refl _⟩
  · intro st a t cp old hold
    unfold BState.check_sell_conditions
    cases hpa : st.portfolio.assets.lookup a with
    | none => exact ⟨old, hold, le_refl _⟩
    | some ad =>
      dsimp only
      by_cases hta : t = a
      · subst hta
        rw [hold]
        refine ⟨max old cp, ?_, le_max_left _ _⟩
        split_ifs <;> simp [lookup_updateEntry_self]
      · refine ⟨old, ?_, le_refl _⟩
        split_ifs <;> simpa [lookup_updateEntry_ne _ _ _ _ hta] using hold
  · intro st st' a q b h
    cases hq : st.sim.sell_stock a q with
    | none =>
      simp only [BState.sell, hq] at h
      cases h
      rfl
    | some qi =>
      simp only [BState.sell, hq] at h
      by_cases hz : qi.total = 0
      · rw [if_pos hz] at h
        cases h
        rfl
      · rw [if_neg hz] at h
        cases hpv : st.portfolio.paid_value a q with
        | error e => simp [hpv, Bind.bind, Except.bind] at h
        | ok v =>
          cases hra : st.portfolio.remove_asset a q qi.total qi.price qi.date with
          | error e => simp [hpv, hra, Bind.bind, Except.bind] at h
          | ok p' =>
            simp [hpv, hra, Bind.bind, Except.bind] at h
            rw [← h.1]

/-- Witness for C7's amended statement: refreshing the peak of `"A"`
at price 120 from `bC7` keeps a tracked peak at least the old 100. -/
theorem peak_price_monotone_never_reset_witness :
    ∃ new, (bC7.update_peak_price "A" 120).peak_prices.lookup "A" = some new
      ∧ (100 : ℚ) ≤ new :=
  peak_price_monotone_never_reset.1 bC7 "A" "A" 120 100 (by simp [bC7, List.lookup])

/-! Frame and shape lemmas for the run loop: every operation inside the
day body leaves the simulation cursor (trading days, index, current
date, current data) and the statistics stream untouched, writing at most
the portfolio, the peak map, the rebalance bookkeeping and the price
cache. -/

theorem simFrame_refl (s : SimState) : simFrame s s :=
  ⟨rfl, rfl, rfl, rfl, rfl, rfl⟩

theorem simFrame_trans {a b c : SimState} (h1 : simFrame a b) (h2 : simFrame b c) :
    simFrame a c := by
  obtain ⟨m1, f1, t1, i1, d1, c1⟩ := h1
  obtain ⟨m2, f2, t2, i2, d2, c2⟩ := h2
  exact ⟨m2.trans m1, f2.trans f1, t2.trans t1, i2.trans i1, d2.trans d1, c2.trans c1⟩

theorem glap_frame (s : SimState) (a : String) :
    simFrame s (s.get_last_available_price a).2 := by
  unfold SimState.get_last_available_price
  split
  · exact simFrame_refl s
  · dsimp only
    split <;> exact ⟨rfl, rfl, rfl, rfl, rfl, rfl⟩

theorem sell_shape (st st' : BState) (a : String) (q : ℚ) (b : Bool)
    (h : st.sell a q = .ok (st', b)) :
    st' = st ∨ ∃ p', st' = { st with portfolio := p' } := by
  cases hq : st.sim.sell_stock a q with
  | none =>
    simp only [BState.sell, hq] at h
    cases h
    exact .inl rfl
  | some qi =>
    simp only [BState.sell, hq] at h
    by_cases hz : qi.total = 0
    · rw [if_pos hz] at h
      cases h
      exact .inl rfl
    · rw [if_neg hz] at h
      cases hpv : st.portfolio.paid_value a q with
      | error e => simp [hpv, Bind.bind, Except.bind] at h
      | ok v =>
        cases hra : st.portfolio.remove_asset a q qi.total qi.price qi.date with
        | error e => simp [hpv, hra, Bind.bind, Except.bind] at h
        | ok p' =>
          simp [hpv, hra, Bind.bind, Except.bind] at h
          exact .inr ⟨p', h.1.symm⟩

theorem buy_shape (st : BState) (s : String) (q : ℚ) :
    (st.buy s q).1 = st ∨ ∃ p', (st.buy s q).1 = { st with portfolio := p' } := by
  unfold BState.buy
  cases hq : st.sim.buy_stock s q with
  | none => exact .inl rfl
  | some qi =>
    dsimp only
    split
    · exact .inl rfl
    · exact .inr ⟨_, rfl⟩

theorem check_sell_shape (st : BState) (a : String) (cp : ℚ) :
    (st.check_sell_conditions a cp).1 = st
    ∨ ∃ pk, (st.check_sell_conditions a cp).1 = { st with peak_prices := pk } := by
  unfold BState.check_sell_conditions
  cases h : st.portfolio.assets.lookup a with
  | none => exact .inl rfl
  | some ad =>
    dsimp only
    split_ifs <;> exact .inr ⟨_, rfl⟩

theorem riskExitStep_shape (il : Bool) (st st' : BState) (a : String)
    (h : st.riskExitStep il a = .ok st') :
    ∃ pf pk sim', st' = { st with portfolio := pf, peak_prices := pk, sim := sim' }
      ∧ simFrame st.sim sim' := by
  unfold BState.riskExitStep at h
  cases il with
  | true =>
    simp only [Bind.bind, Except.bind, if_true] at h
    cases hs : BState.sell { st with sim := (st.sim.get_last_available_price a).2 } a
        (((({ st with sim := (st.sim.get_last_available_price a).2 } :
            BState).portfolio.assets.lookup a).map (fun x => x.quantity)).getD 0) with
    | error e => rw [hs] at h; cases h
    | ok pr =>
      rw [hs] at h
      cases h
      rcases sell_shape _ _ _ _ _ hs with hsh | ⟨p', hsh⟩
      · exact ⟨st.portfolio, st.peak_prices, (st.sim.get_last_available_price a).2,
          by rw [hsh], glap_frame st.sim a⟩
      · exact ⟨p', st.peak_prices, (st.sim.get_last_available_price a).2,
          by rw [hsh], glap_frame st.sim a⟩
  | false =>
    simp only [Bind.bind, Except.bind, if_false, Bool.false_eq_true] at h
    by_cases h0 : (st.sim.get_last_available_price a).1 > 0
    · rw [if_pos h0] at h
      set st1 : BState := { st with sim := (st.sim.get_last_available_price a).2 } with hst1
      by_cases hcs : (st1.check_sell_conditions a (st.sim.get_last_available_price a).1).2
      · rw [if_pos hcs] at h
        cases hs : BState.sell (st1.check_sell_conditions a
            (st.sim.get_last_available_price a).1).1 a
            ((((st1.check_sell_conditions a
                (st.sim.get_last_available_price a).1).1.portfolio.assets.lookup a).map
              (fun x => x.quantity)).getD 0) with
        | error e => rw [hs] at h; cases h
        | ok pr =>
          rw [hs] at h
          cases h
          rcases check_sell_shape st1 a (st.sim.get_last_available_price a).1 with hck | ⟨pk, hck⟩ <;>
            rcases sell_shape _ _ _ _ _ hs with hsh | ⟨p', hsh⟩
          · exact ⟨st.portfolio, st.peak_prices, (st.sim.get_last_available_price a).2,
              by rw [hsh, hck], glap_frame st.sim a⟩
          · exact ⟨p', st.peak_prices, (st.sim.get_last_available_price a).2,
              by rw [hsh, hck], glap_frame st.sim a⟩
          · exact ⟨st.portfolio, pk, (st.sim.get_last_available_price a).2,
              by rw [hsh, hck], glap_frame st.sim a⟩
          · exact ⟨p', pk, (st.sim.get_last_available_price a).2,
              by rw [hsh, hck], glap_frame st.sim a⟩
      · rw [if_neg hcs] at h
        cases h
        rcases check_sell_shape st1 a (st.sim.get_last_available_price a).1 with hck | ⟨pk, hck⟩
        · exact ⟨st.portfolio, st.peak_prices, (st.sim.get_last_available_price a).2,
            by rw [hck], glap_frame st.sim a⟩
        · exact ⟨st.portfolio, pk, (st.sim.get_last_available_price a).2,
            by rw [hck], glap_frame st.sim a⟩
    · rw [if_neg h0] at h
      cases h
      exact ⟨st.portfolio, st.peak_prices, (st.sim.get_last_available_price a).2,
        rfl, glap_frame st.sim a⟩

theorem riskLoop_shape (il : Bool) :
    ∀ (items : List (String × Asset)) (st st' : BState),
    (items.foldlM (fun (st : BState) kv => st.riskExitStep il kv.1) st) = .ok st' →
    ∃ pf pk sim', st' = { st with portfolio := pf, peak_prices := pk, sim := sim' }
      ∧ simFrame st.sim sim'
  | [], st, st', h => by
    cases h
    exact ⟨st.portfolio, st.peak_prices, st.sim, rfl, simFrame_refl st.sim⟩
  | kv :: rest, st, st', h => by
    rw [List.foldlM_cons] at h
    cases hstep : st.riskExitStep il kv.1 with
    | error e => simp [hstep, Bind.bind, Except.bind] at h
    | ok st1 =>
      rw [hstep] at h
      simp only [Bind.bind, Except.bind] at h
      obtain ⟨pf1, pk1, sim1, hsh1, hfr1⟩ := riskExitStep_shape il st st1 kv.1 hstep
      obtain ⟨pf2, pk2, sim2, hsh2, hfr2⟩ := riskLoop_shape il rest st1 st' h
      subst hsh1
      exact ⟨pf2, pk2, sim2, hsh2, simFrame_trans hfr1 hfr2⟩

theorem monthArm_shape (lm : Nat) (st : BState) :
    ∃ nr, (BState.monthArm lm st).2 = { st with need_rebalance := nr } := by
  unfold BState.monthArm
  split
  · exact ⟨"sell", rfl⟩
  · exact ⟨st.need_rebalance, rfl⟩

theorem foldlM_portfolio_shape {α : Type} (f : BState → α → Except String BState)
    (hf : ∀ st a st', f st a = .ok st' → st' = st ∨ ∃ p', st' = { st with portfolio := p' }) :
    ∀ (l : List α) (st st' : BState), l.foldlM f st = .ok st' →
      st' = st ∨ ∃ pf, st' = { st with portfolio := pf }
  | [], st, st', h => by
    cases h
    exact .inl rfl
  | a :: rest, st, st', h => by
    rw [List.foldlM_cons] at h
    cases hstep : f st a with
    | error e => rw [hstep] at h; simp [Bind.bind, Except.bind] at h
    | ok st1 =>
      rw [hstep] at h
      simp only [Bind.bind, Except.bind] at h
      rcases hf st a st1 hstep with h1 | ⟨p', h1⟩
      · subst h1
        exact foldlM_portfolio_shape f hf rest st1 st' h
      · subst h1
        rcases foldlM_portfolio_shape f hf rest _ st' h with h2 | ⟨pf, h2⟩
        · exact .inr ⟨p', h2⟩
        · exact .inr ⟨pf, h2⟩

theorem foldl_portfolio_shape {α : Type} (f : BState → α → BState)
    (hf : ∀ st a, f st a = st ∨ ∃ p', f st a = { st with portfolio := p' }) :
    ∀ (l : List α) (st : BState),
      l.foldl f st = st ∨ ∃ pf, l.foldl f st = { st with portfolio := pf }
  | [], st => .inl rfl
  | a :: rest, st => by
    rw [List.foldl_cons]
    rcases hf st a with h1 | ⟨p', h1⟩
    · rw [h1]
      exact foldl_portfolio_shape f hf rest st
    · rw [h1]
      rcases foldl_portfolio_shape f hf rest { st with portfolio := p' } with h2 | ⟨pf, h2⟩
      · exact .inr ⟨p', h2⟩
      · exact .inr ⟨pf, h2⟩

theorem pmFold_shape :
    ∀ (tops : List String) (pm0 : List (String × ℚ)) (st : BState),
    ∃ sim', (tops.foldl BState.pmStep (pm0, st)).2 = { st with sim := sim' }
      ∧ simFrame st.sim sim'
  | [], pm0, st => ⟨st.sim, rfl, simFrame_refl st.sim⟩
  | t :: rest, pm0, st => by
    rw [List.foldl_cons]
    obtain ⟨sim2, hsh, hfr⟩ := pmFold_shape rest
      (updateEntry pm0 t ((st.sim.get_last_available_price t).1 * (101 / 100)))
      { st with sim := (st.sim.get_last_available_price t).2 }
    exact ⟨sim2, hsh, simFrame_trans (glap_frame st.sim t) hfr⟩

theorem sellHeldStep_shape (st : BState) (a : String) (st' : BState)
    (h : st.sellHeldStep a = .ok st') :
    st' = st ∨ ∃ p', st' = { st with portfolio := p' } := by
  unfold BState.sellHeldStep at h
  simp only [Bind.bind, Except.bind] at h
  split at h
  · cases h
  · rename_i v heq
    simp only [pure, Except.pure] at h
    cases h
    exact sell_shape st v.1 a _ v.2 (by rw [heq])

theorem rebalanceBuyStep_shape (AB : ℚ) (pm w : List (String × ℚ)) (st : BState)
    (t : String) :
    BState.rebalanceBuyStep AB pm w st t = st
    ∨ ∃ p', BState.rebalanceBuyStep AB pm w st t = { st with portfolio := p' } := by
  unfold BState.rebalanceBuyStep
  cases hpm : pm.lookup t with
  | none => exact .inl rfl
  | some sp =>
    dsimp only
    split
    · exact .inl rfl
    · split
      · exact buy_shape st t _
      · exact .inl rfl

theorem rebalance_shape (e : ℚ → ℚ) (r : Nat → Nat → List (String × ℚ))
    (st st' : BState) (h : st.rebalance e r = .ok st') :
    ∃ pf tops nr sim',
      st' = { st with portfolio := pf, top_stocks := tops, need_rebalance := nr,
                      sim := sim' }
      ∧ simFrame st.sim sim' := by
  unfold BState.rebalance at h
  by_cases hsell : st.need_rebalance = "sell"
  · rw [if_pos hsell] at h
    simp only [Bind.bind, Except.bind] at h
    split at h
    · cases h
    · rename_i st1 heq
      simp only [pure, Except.pure] at h
      cases h
      rcases foldlM_portfolio_shape BState.sellHeldStep
          (fun s a s' hsa => sellHeldStep_shape s a s' hsa) _ st st1 heq with
        hsh | ⟨pf, hsh⟩
      · rw [hsh]
        exact ⟨st.portfolio, st.top_stocks, "buy", st.sim, rfl, simFrame_refl st.sim⟩
      · rw [hsh]
        exact ⟨pf, st.top_stocks, "buy", st.sim, rfl, simFrame_refl st.sim⟩
  · rw [if_neg hsell] at h
    by_cases hbuy : st.need_rebalance = "buy"
    · rw [if_pos hbuy] at h
      simp only [Bind.bind, Except.bind] at h
      split at h
      · cases h
      · rename_i weights heq
        simp only [pure, Except.pure] at h
        cases h
        set tops := ((r st.sim.current_date.month st.sim.current_date.year).take
          st.params.number_of_stocks).map (fun x => x.1) with htops
        set st1 : BState := { st with top_stocks := tops } with hst1
        obtain ⟨sim1, hpm, hfr⟩ := pmFold_shape tops [] st1
        rw [hpm]
        rcases foldl_portfolio_shape
            (BState.rebalanceBuyStep (st1.portfolio.balance * ((9 : ℚ) / 10))
              (tops.foldl BState.pmStep ([], st1)).1 weights)
            (fun s t => rebalanceBuyStep_shape _ _ weights s t) tops
            { st1 with sim := sim1 } with hsh | ⟨pf, hsh⟩
        · rw [hsh]
          exact ⟨st.portfolio, tops, "None", sim1, rfl, hfr⟩
        · rw [hsh]
          exact ⟨pf, tops, "None", sim1, rfl, hfr⟩
    · rw [if_neg hbuy] at h
      simp only [pure, Except.pure] at h
      cases h
      exact ⟨st.portfolio, st.top_stocks, st.need_rebalance, st.sim, rfl,
        simFrame_refl st.sim⟩

theorem statsAppend_shape (d : Date) (st st' : BState)
    (h : BState.statsAppend d st = .ok st') :
    ∃ rec : StatRecord, rec.datetime = d
      ∧ st' = { st with portfolio_statistics := st.portfolio_statistics ++ [rec] } := by
  unfold BState.statsAppend at h
  split at h
  · cases h
  · cases h
    exact ⟨_, rfl, rfl⟩

theorem dayBody_stats (e : ℚ → ℚ) (r : Nat → Nat → List (String × ℚ))
    (lm : Nat) (st st' : BState) (lm' : Nat)
    (h : st.dayBody e r lm = .ok (st', lm')) :
    (∃ rec : StatRecord, rec.datetime = st.sim.current_date
      ∧ st'.portfolio_statistics = st.portfolio_statistics ++ [rec])
    ∧ st'.sim.trading_days = st.sim.trading_days
    ∧ st'.sim.current_trading_day_index = st.sim.current_trading_day_index := by
  unfold BState.dayBody at h
  simp only [Bind.bind, Except.bind] at h
  obtain ⟨nr, hma⟩ := monthArm_shape lm st
  split at h
  · split at h
    · cases h
    · rename_i st1 heq1
      obtain ⟨pf1, tops1, nr1, sim1, hsh1, hfr1⟩ := rebalance_shape e r _ st1 heq1
      rw [hma] at hsh1 hfr1
      split at h
      · cases h
      · rename_i st2 heq2
        split at h
        · cases h
        · rename_i st3 heq3
          simp only [pure, Except.pure, Except.ok.injEq, Prod.mk.injEq] at h
          obtain ⟨hst3, hlm⟩ := h
          subst hst3
          obtain ⟨pf2, pk2, sim2, hsh2, hfr2⟩ := riskLoop_shape _ _ st1 st2 heq2
          obtain ⟨rec, hrec, hsh3⟩ := statsAppend_shape _ st2 st3 heq3
          have hfr2' : simFrame sim1 sim2 := by
            rw [hsh1] at hfr2
            exact hfr2
          rw [hsh3, hsh2, hsh1]
          refine ⟨⟨rec, hrec, rfl⟩, ?_, ?_⟩
          · exact (simFrame_trans hfr1 hfr2').2.2.1
          · exact (simFrame_trans hfr1 hfr2').2.2.2.1
  · simp only [pure, Except.pure] at h
    split at h
    · cases h
    · rename_i st2 heq2
      split at h
      · cases h
      · rename_i st3 heq3
        simp only [pure, Except.pure, Except.ok.injEq, Prod.mk.injEq] at h
        obtain ⟨hst3, hlm⟩ := h
        subst hst3
        obtain ⟨pf2, pk2, sim2, hsh2, hfr2⟩ := riskLoop_shape _ _ _ st2 heq2
        obtain ⟨rec, hrec, hsh3⟩ := statsAppend_shape _ st2 st3 heq3
        rw [hma] at hsh2 hfr2
        have hfr2' : simFrame st.sim sim2 := hfr2
        rw [hsh3, hsh2]
        refine ⟨⟨rec, hrec, rfl⟩, ?_, ?_⟩
        · exact hfr2'.2.2.1
        · exact hfr2'.2.2.2.1

theorem step_advances (s : SimState)
    (h : s.current_trading_day_index + 1 < s.trading_days.length) :
    (s.step).2 = true
    ∧ (s.step).1.trading_days = s.trading_days
    ∧ (s.step).1.current_trading_day_index = s.current_trading_day_index + 1
    ∧ (s.step).1.current_date
        = s.trading_days.getD (s.current_trading_day_index + 1) s.current_date := by
  unfold SimState.step
  rw [if_pos h]
  dsimp only
  split <;> exact ⟨rfl, rfl, rfl, rfl⟩

theorem step_halts (s : SimState)
    (h : ¬ s.current_trading_day_index + 1 < s.trading_days.length) :
    s.step = (s, false) := by
  unfold SimState.step
  rw [if_neg h]

theorem runAux_stats (e : ℚ → ℚ) (r : Nat → Nat → List (String × ℚ)) :
    ∀ (fuel lm : Nat) (st final : BState),
    st.sim.trading_days.length ≤ st.sim.current_trading_day_index + fuel →
    runAux e r fuel lm st = .ok final →
    final.portfolio_statistics.map (fun x => x.datetime)
      = st.portfolio_statistics.map (fun x => x.datetime)
        ++ st.sim.trading_days.drop (st.sim.current_trading_day_index + 1)
  | 0, lm, st, final, hfuel, h => by
    cases h
    rw [List.drop_eq_nil_of_le (by omega), List.append_nil]
  | fuel + 1, lm, st, final, hfuel, h => by
    rw [runAux] at h
    by_cases hlt : st.sim.current_trading_day_index + 1 < st.sim.trading_days.length
    · obtain ⟨hb, hdays, hidx, hdate⟩ := step_advances st.sim hlt
      rw [hb] at h
      rw [if_pos rfl] at h
      simp only [Bind.bind, Except.bind] at h
      split at h
      · cases h
      · rename_i bodied heqB
        obtain ⟨⟨rec, hrec, hstats⟩, hdays2, hidx2⟩ :=
          dayBody_stats e r lm _ bodied.1 bodied.2 heqB
        have h1 : bodied.1.sim.trading_days = (st.sim.step).1.trading_days := hdays2
        have h2 : bodied.1.sim.current_trading_day_index
            = (st.sim.step).1.current_trading_day_index := hidx2
        have hIH := runAux_stats e r fuel bodied.2 bodied.1 final
          (by rw [h1, h2, hdays, hidx]; omega) h
        have hstats' : bodied.1.portfolio_statistics
            = st.portfolio_statistics ++ [rec] := hstats
        have hrec' : rec.datetime = (st.sim.step).1.current_date := hrec
        rw [hIH, hstats', h1, h2, hdays, hidx]
        rw [List.drop_eq_getElem_cons hlt]
        have hgetd : rec.datetime
            = st.sim.trading_days[st.sim.current_trading_day_index + 1] := by
          rw [hrec', hdate]
          exact List.getD_eq_getElem _ _ hlt
        simp [hgetd]
    · rw [step_halts st.sim hlt] at h
      simp only [if_false, Bool.false_eq_true] at h
      cases h
      rw [List.drop_eq_nil_of_le (by omega), List.append_nil]

/-- C10: `run()` steps the simulation before any per-day processing, so
the first trading day of the range is never simulated: the recorded
statistics stream visits exactly `trading_days.drop 1` — its first entry
is the second trading day, no record is ever produced for
`trading_days[0]`, and it is empty when the range holds exactly one
trading day. -/
theorem run_skips_first_trading_day (e : ℚ → ℚ) (r : Nat → Nat → List (String × ℚ))
    (params : BParams) (data : List Row) (fee : ℚ) (start_date end_date : Date)
    (st0 final : BState)
    (hinit : BState.init params data fee start_date end_date = .ok st0)
    (hrun : st0.run e r = .ok final) :
    final.portfolio_statistics.map (fun x => x.datetime)
      = st0.sim.trading_days.drop 1 := by
  have hsim : st0.sim.current_trading_day_index = 0
      ∧ st0.portfolio_statistics = [] := by
    unfold BState.init SimState.init at hinit
    simp only [Bind.bind, Except.bind] at hinit
    split at hinit
    · cases hinit
    · rename_i s heqs
      split at heqs
      · cases heqs
      · cases heqs
        cases hinit
        exact ⟨rfl, rfl⟩
  unfold BState.run at hrun
  have h := runAux_stats e r st0.sim.trading_days.length st0.sim.current_date.month
    { st0 with need_rebalance := "buy" } final
    (by
      show st0.sim.trading_days.length
        ≤ st0.sim.current_trading_day_index + st0.sim.trading_days.length
      omega)
    hrun
  have h' : final.portfolio_statistics.map (fun x => x.datetime)
      = st0.portfolio_statistics.map (fun x => x.datetime)
        ++ st0.sim.trading_days.drop (st0.sim.current_trading_day_index + 1) := h
  rw [h', hsim.2, hsim.1]
  simp

/-- Witness scenario for C10: two trading days before the release day,
an empty ranking; the run completes and its statistics stream is exactly
the one-element list holding the second trading day. -/
theorem run_skips_first_trading_day_witness :
    ∃ st0 final : BState,
      BState.init pC9 dataC10 0 ⟨2024, 1, 5⟩ ⟨2024, 1, 6⟩ = .ok st0
      ∧ st0.run id (fun _ _ => []) = .ok final
      ∧ final.portfolio_statistics.map (fun x => x.datetime)
          = st0.sim.trading_days.drop 1 := by
  have hinit : BState.init pC9 dataC10 0 ⟨2024, 1, 5⟩ ⟨2024, 1, 6⟩ = .ok st0C10 := by
    norm_num [BState.init, SimState.init, get_trading_days, dedupDates, dedupDatesAux,
      sortDates, insertDate, Date.leb, dataC10, dataByDate, Bind.bind, Except.bind,
      pure, Except.pure, st0C10, pC9, Portfolio.init, DailyStats.fresh]
  have h1 : ∃ final, st0C10.run id (fun _ _ => []) = .ok final := by
    norm_num [BState.run, runAux, SimState.step, dataByDate, BState.dayBody,
      BState.monthArm, BState.statsAppend, Portfolio.get_daily_statistics,
      SimState.get_portfolio_statistics, SimState.is_last_trading_day,
      BState.rebalance, updateEntry, Bind.bind, Except.bind, pure, Except.pure,
      st0C10, pC9, Portfolio.init, DailyStats.fresh, dataC10, List.lookup]
  obtain ⟨final, h1⟩ := h1
  exact ⟨st0C10, final, hinit, h1,
    run_skips_first_trading_day id (fun _ _ => []) pC9 dataC10 0 _ _ st0C10 final
      hinit h1⟩

set_option maxHeartbeats 3000000 in
/-- C9 counterexample: on `dataC9` (where `"A"` trades on the first two
days but not on the last) the run buys 8 shares of `"A"` on day two and
then fails to liquidate on the final day because `"A"` has no quote:
`run()` terminates with `"A"` still held, so the portfolio is not empty.
-/
theorem final_day_liquidation_fails :
    BState.init pC9 dataC9 0 ⟨2024, 1, 20⟩ ⟨2024, 1, 22⟩ = .ok st0C9
    ∧ (st0C9.run id rankC9).map (fun f => f.portfolio.assets.lookup "A")
        = .ok (some ⟨8, 100⟩) := by
  constructor
  · norm_num [BState.init, SimState.init, get_trading_days, dedupDates, dedupDatesAux,
      sortDates, insertDate, Date.leb, dataC9, dataByDate, Bind.bind, Except.bind,
      pure, Except.pure, st0C9, pC9, Portfolio.init, DailyStats.fresh]
  · norm_num [BState.run, runAux, SimState.step, dataByDate, BState.dayBody,
      BState.monthArm, BState.statsAppend, Portfolio.get_daily_statistics,
      SimState.get_portfolio_statistics, SimState.is_last_trading_day,
      BState.rebalance, BState.rebalanceBuyStep, BState.pmStep, BState.sellHeldStep,
      BState.riskExitStep, BState.sell, BState.buy, BState.check_sell_conditions,
      SimState.sell_stock, SimState.buy_stock, SimState.get_last_available_price,
      maxDateRowFirst, get_weights, Portfolio.add_asset, Portfolio.remove_asset,
      Portfolio.paid_value, updateEntry, eraseKey, Bind.bind, Except.bind, pure,
      Except.pure, st0C9, pC9, rankC9, Portfolio.init, DailyStats.fresh, dataC9,
      List.lookup, MAX_VOLUME, RELEASE_DAY, Except.map, Date.leb, Date.ltb,
      (show ("buy" : String) = "sell" ↔ False by decide),
      (show ("buy" : String) = "buy" ↔ True by decide),
      (show ("buy" : String) = "no" ↔ False by decide),
      (show ("None" : String) = "sell" ↔ False by decide),
      (show ("None" : String) = "buy" ↔ False by decide),
      (show ("None" : String) = "no" ↔ False by decide),
      (show ("equal" : String) = "softmax" ↔ False by decide),
      (show ("equal" : String) = "equal" ↔ True by decide),
      (show ("A" : String) = "B" ↔ False by decide),
      (show ("B" : String) = "A" ↔ False by decide),
      (show ∀ d : Date, (none : Option Date) = some d ↔ False by intro d; simp)]

theorem glap_cached (s : SimState) (a : String) (p : ℚ)
    (h : s.latest_price_cache.lookup a = some p) :
    s.get_last_available_price a = (p, s) := by
  unfold SimState.get_last_available_price
  rw [h]

theorem riskExitStep_lastday (st : BState) (a : String) (d : Asset)
    (rest : List (String × Asset)) (p : ℚ)
    (hassets : st.portfolio.assets = (a, d) :: rest)
    (hcache : st.sim.latest_price_cache.lookup a = some p) (hp : p ≠ 0)
    (hquoted : a ∈ st.sim.current_data.map (fun r => r.symbol))
    (hq : d.quantity ≠ 0) (hfee : st.sim.fee ≠ 1) :
    ∃ P : Portfolio, st.riskExitStep true a = .ok { st with portfolio := P }
      ∧ P.assets = rest := by
  have hne : st.sim.current_data ≠ [] := by
    intro h0
    rw [h0] at hquoted
    simp at hquoted
  have hcont : ((st.sim.current_data.map (fun r => r.symbol)).contains a) = true := by
    simpa using hquoted
  have htot : p * d.quantity * (1 - st.sim.fee) ≠ 0 :=
    mul_ne_zero (mul_ne_zero hp hq) (sub_ne_zero_of_ne (Ne.symm hfee))
  have hquote : st.sim.sell_stock a d.quantity = some
      { symbol := a, quantity := d.quantity,
        total := p * d.quantity * (1 - st.sim.fee), price := p,
        date := st.sim.current_date } := by
    unfold SimState.sell_stock
    rw [if_neg hne, if_neg (not_not_intro hcont), hcache]
    rfl
  have hlookup : st.portfolio.assets.lookup a = some d := by
    rw [hassets]
    simp [List.lookup]
  have hq2 : ((st.portfolio.assets.lookup a).map (fun x => x.quantity)).getD 0
      = d.quantity := by
    rw [hlookup]
    rfl
  have hpv : st.portfolio.paid_value a d.quantity
      = .ok (d.quantity * d.average_price) := by
    unfold Portfolio.paid_value
    rw [hlookup]
  have hrm : ∃ P, st.portfolio.remove_asset a d.quantity
      (p * d.quantity * (1 - st.sim.fee)) p st.sim.current_date = .ok P
      ∧ P.assets = rest := by
    simp only [Portfolio.remove_asset, hlookup]
    rw [if_neg (gt_irrefl d.quantity)]
    rw [if_pos (show d.quantity - d.quantity ≤ 0 by simp)]
    refine ⟨_, rfl, ?_⟩
    rw [hassets]
    simp [eraseKey]
  obtain ⟨P, hrmeq, hPassets⟩ := hrm
  have hsell : st.sell a d.quantity = .ok ({ st with portfolio := P }, true) := by
    unfold BState.sell
    rw [hquote]
    dsimp only
    rw [if_neg htot]
    simp only [hpv, hrmeq, Bind.bind, Except.bind]
  refine ⟨P, ?_, hPassets⟩
  unfold BState.riskExitStep
  rw [glap_cached st.sim a p hcache]
  dsimp only
  rw [if_pos (show (true = true) from rfl)]
  rw [hq2, hsell]
  simp only [Bind.bind, Except.bind, pure, Except.pure]

theorem riskLoop_lastday :
    ∀ (items : List (String × Asset)) (st : BState),
    st.portfolio.assets = items →
    (∀ kv ∈ items, ∃ p, st.sim.latest_price_cache.lookup kv.1 = some p ∧ p ≠ 0) →
    (∀ kv ∈ items, kv.1 ∈ st.sim.current_data.map (fun r => r.symbol)) →
    (∀ kv ∈ items, kv.2.quantity ≠ 0) →
    st.sim.fee ≠ 1 →
    ∃ st', (items.foldlM (fun (s : BState) kv => s.riskExitStep true kv.1) st) = .ok st'
      ∧ st'.portfolio.assets = [] ∧ st'.sim = st.sim
  | [], st, hassets, _, _, _, _ => ⟨st, rfl, hassets, rfl⟩
  | (a, d) :: rest, st, hassets, hcache, hquoted, hq, hfee => by
    rw [List.foldlM_cons]
    obtain ⟨p, hcp, hp⟩ := hcache (a, d) (by simp)
    obtain ⟨P, hstep, hPassets⟩ := riskExitStep_lastday st a d rest p hassets hcp hp
      (hquoted (a, d) (by simp)) (hq (a, d) (by simp)) hfee
    rw [hstep]
    simp only [Bind.bind, Except.bind]
    obtain ⟨st', hfold, hempty, hsim⟩ := riskLoop_lastday rest
      { st with portfolio := P } hPassets
      (fun kv hkv => hcache kv (by simp [hkv]))
      (fun kv hkv => hquoted kv (by simp [hkv]))
      (fun kv hkv => hq kv (by simp [hkv])) hfee
    exact ⟨st', hfold, hempty, by rw [hsim]⟩

theorem statsAppend_empty_assets (dt : Date) (st : BState)
    (hempty : st.portfolio.assets = []) :
    ∃ st2, BState.statsAppend dt st = .ok st2 ∧ st2.portfolio.assets = [] := by
  unfold BState.statsAppend SimState.get_portfolio_statistics
  simp only [hempty, List.all_nil, List.foldl_nil, if_true]
  exact ⟨_, rfl, hempty⟩

/-- C9 as amended: on the last trading day the run loop attempts to
sell every held position, and a position is removed exactly when its
sell quote succeeds; hence when every held symbol is quoted on the final
day with a nonzero cached price (nonzero quantity, fee ≠ 1) the day body
completes and the portfolio ends empty — but a position whose symbol has
no quote on the final day stays in the portfolio (see the
counterexample). -/
theorem last_day_liquidates_quoted (e : ℚ → ℚ) (r : Nat → Nat → List (String × ℚ))
    (lm : Nat) (st : BState)
    (hlast : st.sim.is_last_trading_day = true)
    (hcache : ∀ kv ∈ st.portfolio.assets,
      ∃ p, st.sim.latest_price_cache.lookup kv.1 = some p ∧ p ≠ 0)
    (hquoted : ∀ kv ∈ st.portfolio.assets,
      kv.1 ∈ st.sim.current_data.map (fun rw => rw.symbol))
    (hqty : ∀ kv ∈ st.portfolio.assets, kv.2.quantity ≠ 0)
    (hfee : st.sim.fee ≠ 1) :
    ∃ st' lm', st.dayBody e r lm = .ok (st', lm')
      ∧ st'.portfolio.assets = [] := by
  unfold BState.dayBody
  simp only [Bind.bind, Except.bind]
  obtain ⟨nr, hma⟩ := monthArm_shape lm st
  rw [hma]
  have hlast2 : ({ st with need_rebalance := nr } : BState).sim.is_last_trading_day
      = true := hlast
  simp only [hlast2, not_true, false_and, if_false, pure, Except.pure]
  obtain ⟨stf, hfold, hempty, hsimf⟩ := riskLoop_lastday
    st.portfolio.assets { st with need_rebalance := nr } rfl hcache hquoted hqty hfee
  rw [hfold]
  obtain ⟨st2, hsa, hempty2⟩ := statsAppend_empty_assets st.sim.current_date stf hempty
  simp only [hfold, hsa]
  exact ⟨st2, (BState.monthArm lm st).1, rfl, hempty2⟩

/-- Witness for the amended C9: at `bC7` (one-day range, held `"A"`
quoted at 50) the last-day body liquidates everything. -/
theorem last_day_liquidates_quoted_witness :
    ∃ st' lm', bC7.dayBody id rankC9 1 = .ok (st', lm')
      ∧ st'.portfolio.assets = [] := by
  refine last_day_liquidates_quoted id rankC9 1 bC7 ?_ ?_ ?_ ?_ ?_
  · simp [bC7, simC7, SimState.is_last_trading_day]
  · intro kv hkv
    simp [bC7, Portfolio.init] at hkv
    subst hkv
    exact ⟨50, by simp [bC7, simC7, List.lookup], by norm_num⟩
  · intro kv hkv
    simp [bC7, Portfolio.init] at hkv
    subst hkv
    simp [bC7, simC7]
  · intro kv hkv
    simp [bC7, Portfolio.init] at hkv
    subst hkv
    norm_num
  · simp [bC7, simC7]

end InstiFund
